import Mathlib

/-!
Verification development for the mom-bot-frontend meeting orchestration
client (`src/services/meetingService.ts`) and the transcript export in the
App component.

The TypeScript code is shallowly embedded: each browser `fetch` is modelled
by an explicit outcome value describing what the network did (the request
rejected, the response arrived but its body failed to parse, or the body
parsed as a JSON value), and the service functions become pure Lean
functions from those outcomes to the result objects the code returns.
Promise rejection is modelled with `Except`: a thrown JavaScript value is
`Option String` (`some m` for an `Error` with message `m`, `none` for a
non-`Error` throw).
-/

/-- A JSON value as delivered by `response.json()`.  Numbers are modelled as
integers; the claims never depend on fractional values. -/
inductive Js where
  | null : Js
  | bool (b : Bool) : Js
  | num (n : Int) : Js
  | str (s : String) : Js
  | obj (fields : List (String × Js)) : Js

/-- Property lookup `v.k` on a JSON value: `some` when `v` is an object with
field `k`, otherwise `none` (per JS, non-objects have no own fields here). -/
def Js.getField : Js → String → Option Js
  | .obj fields, k => (fields.find? (fun p => p.1 == k)).map (fun p => p.2)
  | _, _ => none

/-- JavaScript truthiness of a JSON value. -/
def Js.truthy : Js → Bool
  | .null => false
  | .bool b => b
  | .num n => !(n == 0)
  | .str s => !(s == "")
  | .obj _ => true

/-- JavaScript template-literal stringification of a JSON value. -/
def Js.display : Js → String
  | .null => "null"
  | .bool b => if b then "true" else "false"
  | .num n => toString n
  | .str s => s
  | .obj _ => "[object Object]"

/-- `v || d` for an optional JSON value `v` (used for `x?.message || d`):
the display string of `v` when present and truthy, else the default. -/
def jsValueOr (v : Option Js) (d : String) : String :=
  match v with
  | some j => if j.truthy then j.display else d
  | none => d

/-- `s || d` for a required JS string field: the default replaces the empty
(falsy) string. -/
def jsStrOr (s : String) (d : String) : String :=
  if s == "" then d else s

/-- `v || d` for an optional JS string field (`undefined` or empty are
falsy). -/
def jsStringOr (v : Option String) (d : String) : String :=
  match v with
  | some s => jsStrOr s d
  | none => d

/-- `${b}` for a JS boolean. -/
def jsBoolString (b : Bool) : String :=
  if b then "true" else "false"

/-- The message taken from a caught JS value after
`e instanceof Error ? e : fallbackError` style handling: an `Error`'s own
message when one was thrown, otherwise the fallback message. -/
def jsErrorMessage (thrown : Option String) (fallback : String) : String :=
  match thrown with
  | some m => m
  | none => fallback

/-- `new URLSearchParams(search).get(key)`: the value of the first pair with
the given key, or null.  The page's query string is modelled as its list of
key/value pairs. -/
def searchParamsGet (query : List (String × String)) (key : String) : Option String :=
  (query.find? (fun p => p.1 == key)).map (fun p => p.2)

/-- `getTestModeFromUrl` from `meetingService.ts`: true when the
`test_mode` parameter is absent or is the string `"true"`. -/
def getTestModeFromUrl (query : List (String × String)) : Bool :=
  let testModeParam := searchParamsGet query "test_mode"
  testModeParam == none || testModeParam == some "true"

/-- The three hard-coded analyze base URLs from `getAnalyzeApiUrls`. -/
def analyzeBaseUrls : List String :=
  ["http://localhost:8000/api/v1/analyze",
   "http://127.0.0.1:8000/api/v1/analyze",
   "http://0.0.0.0:8000/api/v1/analyze"]

/-- `getAnalyzeApiUrls` from `meetingService.ts`. -/
def getAnalyzeApiUrls (query : List (String × String)) : List String :=
  let testMode := getTestModeFromUrl query
  analyzeBaseUrls.map (fun url =>
    url ++ "?test_mode=" ++ jsBoolString testMode ++ "&llm_timeout=60&user_lookup_timeout=30")

/-- An attendee of a meeting (`TranscriptData.meetingInfo.attendees[i]`). -/
structure Attendee where
  name : String
  email : String
deriving DecidableEq

/-- One timed speech entry of a transcript section. -/
structure TranscriptEntry where
  startTime : String
  endTime : String
  text : String
  speaker : Option String
deriving DecidableEq

/-- One element of `TranscriptData.transcripts`. -/
structure TranscriptSection where
  id : String
  createdDateTime : String
  entries : List TranscriptEntry
deriving DecidableEq

/-- `TranscriptData.meetingInfo`. -/
structure MeetingInfo where
  id : String
  subject : String
  startDateTime : String
  endDateTime : String
  attendees : List Attendee
deriving DecidableEq

/-- `TranscriptData` from `meetingService.ts`. -/
structure TranscriptData where
  meetingInfo : MeetingInfo
  transcripts : List TranscriptSection
deriving DecidableEq

/-- `MeetingProcessResult` from `meetingService.ts`.  Optional fields that
the code leaves off a returned object literal are `none`. -/
structure MeetingProcessResult where
  success : Bool
  data : Option TranscriptData
  analyzeResponse : Option Js
  error : Option String

/-- The `{authenticated: false}` object literal returned by
`checkAuthStatus`'s catch handler, as a JSON value. -/
def authFalseJs : Js :=
  .obj [("authenticated", .bool false)]

/-- What the network did for the `/auth/status` request issued by
`checkAuthStatus`: the fetch rejected, the response arrived but
`response.json()` rejected, or the body parsed to a JSON value. -/
inductive AuthFetchOutcome where
  | fetchThrow (thrown : Option String)
  | jsonThrow (status : Nat) (thrown : Option String)
  | jsonOk (status : Nat) (body : Js)

/-- The `try` region of `checkAuthStatus`: both awaits re-raise, a parsed
body is returned as is (the code performs no status or shape check). -/
def checkAuthStatusTry : AuthFetchOutcome → Except (Option String) Js
  | .fetchThrow e => .error e
  | .jsonThrow _ e => .error e
  | .jsonOk _ body => .ok body

/-- `MeetingService.checkAuthStatus`: the `try` region wrapped in the catch
handler that converts any thrown value into `{authenticated: false}`.  The
`Except` layer is the returned promise: `.error` would be a rejection. -/
def checkAuthStatus (o : AuthFetchOutcome) : Except (Option String) Js :=
  match checkAuthStatusTry o with
  | .ok v => .ok v
  | .error _ => .ok authFalseJs

/-- The body of a `/transcript/fetch` response, per the backend contract
`{success: bool, message?: string, data?: TranscriptData}`. -/
structure FetchBody where
  success : Bool
  message : Option String
  data : Option TranscriptData

/-- What the network did for the phase-1 `/transcript/fetch` request. -/
inductive FetchOutcome where
  | fetchThrow (thrown : Option String)
  | jsonThrow (thrown : Option String)
  | body (b : FetchBody)

/-- What the network did for one analyze candidate URL.  `bodyError` is a
response whose `response.json()` rejected; `networkLevel` records whether
that rejection was a transport failure (connection dropped mid-body) or a
non-network one (invalid JSON) — the code cannot observe the flag and
treats both the same. -/
inductive AnalyzeOutcome where
  | transportError (thrown : Option String)
  | bodyError (status : Nat) (networkLevel : Bool) (thrown : Option String)
  | response (status : Nat) (body : Js)

/-- Whether an analyze attempt got through both `fetch` and `json()`. -/
def AnalyzeOutcome.isResponse : AnalyzeOutcome → Bool
  | .response _ _ => true
  | _ => false

/-- `Response.ok`: status in the 2xx range. -/
def respOk (status : Nat) : Bool :=
  decide (200 ≤ status) && decide (status < 300)

/-- The mutable locals of `fetchAndAnalyzeMeeting`'s candidate loop, plus
the trace of candidate URLs actually attempted. -/
structure LoopState where
  analyzeStatus : Option Nat
  analyzeData : Option Js
  lastError : Option String
  attempted : List String

/-- The `for (const apiUrl of analyzeUrls)` loop of
`fetchAndAnalyzeMeeting`: a transport failure records `lastError` and moves
on; a response whose body fails to parse records the response and the error
and moves on; a parsed body records both and leaves the loop. -/
def runAnalyzeLoop (net : String → AnalyzeOutcome) : List String → LoopState → LoopState
  | [], s => s
  | u :: rest, s =>
    let s' : LoopState := { s with attempted := s.attempted ++ [u] }
    match net u with
    | .transportError e =>
        runAnalyzeLoop net rest { s' with lastError := some (jsErrorMessage e "Unknown error") }
    | .bodyError status _ e =>
        runAnalyzeLoop net rest
          { s' with analyzeStatus := some status,
                    lastError := some (jsErrorMessage e "Unknown error") }
    | .response status body =>
        { s' with analyzeStatus := some status, analyzeData := some body }

/-- The `try` region of `fetchAndAnalyzeMeeting`: phase 1 re-raises; phase 2
runs the candidate loop and builds the result object the code returns.
The second component is the trace of analyze candidate URLs attempted. -/
def fetchAndAnalyzeMeetingTry (query : List (String × String)) (fo : FetchOutcome)
    (net : String → AnalyzeOutcome) :
    Except (Option String) MeetingProcessResult × List String :=
  match fo with
  | .fetchThrow e => (.error e, [])
  | .jsonThrow e => (.error e, [])
  | .body b =>
    if !b.success then
      (.ok { success := false, data := none, analyzeResponse := none,
             error := some (jsStringOr b.message "Failed to fetch transcript") }, [])
    else
      let st := runAnalyzeLoop net (getAnalyzeApiUrls query) ⟨none, none, none, []⟩
      match st.analyzeStatus with
      | none =>
        (.ok { success := true, data := b.data, analyzeResponse := none,
               error := some ("Analysis failed - could not connect to any analyze API endpoints. Last error: "
                 ++ jsStringOr st.lastError "Unknown network error"
                 ++ ". Transcript was fetched successfully.") }, st.attempted)
      | some status =>
        if respOk status then
          (.ok { success := true, data := b.data, analyzeResponse := st.analyzeData,
                 error := none }, st.attempted)
        else
          (.ok { success := true, data := b.data, analyzeResponse := st.analyzeData,
                 error := some ("Analysis failed: "
                   ++ jsValueOr (st.analyzeData.bind (fun j => j.getField "message")) "Unknown error"
                   ++ ", but transcript was fetched successfully") }, st.attempted)

/-- `MeetingService.fetchAndAnalyzeMeeting`: the `try` region wrapped in the
outermost catch, which converts any thrown value into a terminal
`{success: false, error}` result.  The `Except` layer is the returned
promise; the trace of attempted analyze URLs is carried alongside. -/
def fetchAndAnalyzeMeeting (query : List (String × String)) (fo : FetchOutcome)
    (net : String → AnalyzeOutcome) :
    Except (Option String) MeetingProcessResult × List String :=
  let r := fetchAndAnalyzeMeetingTry query fo net
  (match r.1 with
   | .ok v => .ok v
   | .error e =>
       .ok { success := false, data := none, analyzeResponse := none,
             error := some (jsErrorMessage e "An error occurred during the process") },
   r.2)

/-- `Array.prototype.join(sep)`: empty array gives the empty string, no
trailing separator. -/
def jsJoin (sep : String) : List String → String
  | [] => ""
  | [x] => x
  | x :: y :: rest => x ++ sep ++ jsJoin sep (y :: rest)

/-- `Array.prototype.map((x, index) => ...)`, carrying the element index. -/
def jsMapIdxFrom (f : Nat → α → β) (i : Nat) : List α → List β
  | [] => []
  | x :: xs => f i x :: jsMapIdxFrom f (i + 1) xs

/-- `Array.prototype.map` with the index callback argument. -/
def jsMapIdx (f : Nat → α → β) (l : List α) : List β :=
  jsMapIdxFrom f 0 l

/-- The `Meeting:` header line of one exported transcript block. -/
def meetingLine (td : TranscriptData) : String :=
  "Meeting: " ++ jsStrOr td.meetingInfo.subject "Untitled Meeting"

/-- The `Date:` header line; `ft` is the browser's locale-dependent
`formatTime` (an abstract parameter of the model). -/
def dateLine (ft : String → String) (td : TranscriptData) : String :=
  "Date: " ++ (if td.meetingInfo.startDateTime == "" then "Unknown"
               else ft td.meetingInfo.startDateTime)

/-- The `Transcript ID:` header line of the block at index `i`. -/
def tidLine (i : Nat) (t : TranscriptSection) : String :=
  "Transcript ID: " ++ jsStrOr t.id ("transcript-" ++ toString (i + 1))

/-- One formatted entry line of the export:
`[<startTime> - <endTime>] <speaker: ><text>` with JS-falsy defaults. -/
def fmtEntryLine (e : TranscriptEntry) : String :=
  "[" ++ jsStrOr e.startTime "00:00" ++ " - " ++ jsStrOr e.endTime "00:00" ++ "] "
    ++ (match e.speaker with
        | some s => if s == "" then "" else s ++ ": "
        | none => "")
    ++ jsStrOr e.text "No content"

/-- The header template of one exported block (`header` in
`downloadTranscript`). -/
def blockHeader (ft : String → String) (td : TranscriptData) (i : Nat)
    (t : TranscriptSection) : String :=
  meetingLine td ++ "\n" ++ dateLine ft td ++ "\n" ++ tidLine i t ++ "\n" ++ "\n"

/-- The `entries` text of one exported block: the joined entry lines, or
the placeholder when the join is falsy (no entries). -/
def entriesText (t : TranscriptSection) : String :=
  jsStrOr (jsJoin "\n" (t.entries.map fmtEntryLine)) "No transcript entries available"

/-- One exported block (`header + entries` in `downloadTranscript`). -/
def blockText (ft : String → String) (td : TranscriptData) (i : Nat)
    (t : TranscriptSection) : String :=
  blockHeader ft td i t ++ entriesText t

/-- The full text produced by `downloadTranscript`: blocks joined by the
`\n\n---\n\n` divider, or the placeholder when the join is falsy. -/
def downloadContent (ft : String → String) (td : TranscriptData) : String :=
  jsStrOr (jsJoin "\n\n---\n\n" (jsMapIdx (blockText ft td) td.transcripts))
    "No transcript data available"

/-- The filename `downloadTranscript` assigns to the artifact. -/
def downloadFilename (td : TranscriptData) : String :=
  "transcript-" ++ jsStrOr td.meetingInfo.id "meeting" ++ ".txt"

/-- The lines of one exported block: the three header lines, a blank line,
then one line per entry. -/
def blockLines (ft : String → String) (td : TranscriptData) (i : Nat)
    (t : TranscriptSection) : List String :=
  [meetingLine td, dateLine ft td, tidLine i t, ""] ++ t.entries.map fmtEntryLine

/-- Concatenate pieces with a separator spliced between consecutive pieces
(list-level counterpart of `jsJoin`). -/
def joinWith (sep : List α) : List (List α) → List α
  | [] => []
  | [x] => x
  | x :: y :: rest => x ++ sep ++ joinWith sep (y :: rest)

/-- Split a list at every occurrence of the element `c` (the reading
counterpart of joining with `[c]`). -/
def splitOnElem [DecidableEq α] (c : α) : List α → List (List α)
  | [] => [[]]
  | x :: xs =>
    match splitOnElem c xs with
    | [] => [[]]
    | r :: rs => if x = c then [] :: r :: rs else (x :: r) :: rs

/-- Drop blank lines from both ends of a chunk of lines. -/
def trimBlank (l : List String) : List String :=
  (((l.dropWhile (fun s => s == "")).reverse.dropWhile (fun s => s == "")).reverse)

/-- Re-reading step 1: the lines of an exported text. -/
def readLines (s : String) : List String :=
  (splitOnElem '\n' s.data).map List.asString

/-- Re-reading step 2: cut the line list at each literal `---` divider line
and discard the surrounding blank lines of each chunk. -/
def readBlocks (s : String) : List (List String) :=
  (splitOnElem "---" (readLines s)).map trimBlank

/-! ### Helper lemmas -/

theorem strAppend_ne_empty (a b : String) (h : a ≠ "") : a ++ b ≠ "" := by
  intro hc
  apply h
  have hd := congrArg String.data hc
  rw [String.data_append] at hd
  have h0 : a.data = [] := (List.append_eq_nil.mp hd).1
  exact String.ext h0

theorem runAnalyzeLoop_allTransport (net : String → AnalyzeOutcome) :
    ∀ (urls : List String) (a : Option Nat) (d : Option Js) (le : Option String)
      (t : List String),
    (∀ u ∈ urls, ∃ e, net u = .transportError e) →
    ∃ le', runAnalyzeLoop net urls ⟨a, d, le, t⟩ = ⟨a, d, le', t ++ urls⟩ := by
  intro urls
  induction urls with
  | nil => exact fun a d le t _ => ⟨le, by simp [runAnalyzeLoop]⟩
  | cons u rest ih =>
    intro a d le t h
    obtain ⟨e, he⟩ := h u (List.mem_cons_self u rest)
    obtain ⟨le', hle'⟩ := ih a d (some (jsErrorMessage e "Unknown error")) (t ++ [u])
      (fun v hv => h v (List.mem_cons_of_mem _ hv))
    refine ⟨le', ?_⟩
    simp only [runAnalyzeLoop, he]
    rw [hle']
    simp

theorem runAnalyzeLoop_firstResponse (net : String → AnalyzeOutcome) :
    ∀ (pre : List String) (u : String) (post : List String) (a : Option Nat)
      (d : Option Js) (le : Option String) (t : List String) (stt : Nat) (body : Js),
    (∀ v ∈ pre, (net v).isResponse = false) →
    net u = .response stt body →
    ∃ le', runAnalyzeLoop net (pre ++ u :: post) ⟨a, d, le, t⟩ =
      ⟨some stt, some body, le', t ++ pre ++ [u]⟩ := by
  intro pre
  induction pre with
  | nil =>
    intro u post a d le t stt body _ hu
    exact ⟨le, by simp [runAnalyzeLoop, hu]⟩
  | cons v pre ih =>
    intro u post a d le t stt body hpre hu
    have hv := hpre v (List.mem_cons_self _ _)
    have hrest : ∀ w ∈ pre, (net w).isResponse = false :=
      fun w hw => hpre w (List.mem_cons_of_mem _ hw)
    cases hnv : net v with
    | transportError e =>
      obtain ⟨le', h⟩ := ih u post a d (some (jsErrorMessage e "Unknown error"))
        (t ++ [v]) stt body hrest hu
      refine ⟨le', ?_⟩
      simp only [List.cons_append, runAnalyzeLoop, hnv]
      exact h.trans (by simp)
    | bodyError st nl e =>
      obtain ⟨le', h⟩ := ih u post (some st) d (some (jsErrorMessage e "Unknown error"))
        (t ++ [v]) stt body hrest hu
      refine ⟨le', ?_⟩
      simp only [List.cons_append, runAnalyzeLoop, hnv]
      exact h.trans (by simp)
    | response st2 b2 =>
      rw [hnv] at hv
      simp [AnalyzeOutcome.isResponse] at hv

/-- The three full candidate URLs produced when `test_mode` is true
(query parameter absent). -/
def analyzeUrl0 : String :=
  "http://localhost:8000/api/v1/analyze?test_mode=true&llm_timeout=60&user_lookup_timeout=30"

def analyzeUrl1 : String :=
  "http://127.0.0.1:8000/api/v1/analyze?test_mode=true&llm_timeout=60&user_lookup_timeout=30"

def analyzeUrl2 : String :=
  "http://0.0.0.0:8000/api/v1/analyze?test_mode=true&llm_timeout=60&user_lookup_timeout=30"

theorem getAnalyzeApiUrls_nil :
    getAnalyzeApiUrls [] = [analyzeUrl0, analyzeUrl1, analyzeUrl2] := rfl

/-! ### Claims -/

/-- **C2.** For every transcript-fetch response whose body has
`success: false`, `fetchAndAnalyzeMeeting` returns
`{success: false, error: message-or-default}` (the response's `message`
field when truthy, else `"Failed to fetch transcript"`) and issues no
analyze call: the attempted-URL trace is empty, so phase 2 never runs. -/
theorem fetchFailure_stops (query : List (String × String)) (b : FetchBody)
    (net : String → AnalyzeOutcome) (hb : b.success = false) :
    fetchAndAnalyzeMeeting query (.body b) net =
      (.ok { success := false, data := none, analyzeResponse := none,
             error := some (jsStringOr b.message "Failed to fetch transcript") }, []) := by
  simp [fetchAndAnalyzeMeeting, fetchAndAnalyzeMeetingTry, hb]

/-- Witness for C2 at a concrete failing fetch body. -/
theorem fetchFailure_stops_witness :
    fetchAndAnalyzeMeeting [] (.body ⟨false, some "no transcript found", none⟩)
        (fun _ => .transportError none) =
      (.ok { success := false, data := none, analyzeResponse := none,
             error := some "no transcript found" }, []) :=
  (fetchFailure_stops [] ⟨false, some "no transcript found", none⟩
    (fun _ => .transportError none) rfl).trans rfl

/-- **C3.** When the transcript fetch succeeds and every analyze candidate
fails at the transport level, the result is
`{success: true, data: <transcript>, error: <non-empty summary>}` with
`analyzeResponse` absent, and all three candidates were attempted. -/
theorem allTransport_partial_success (query : List (String × String)) (b : FetchBody)
    (net : String → AnalyzeOutcome) (hb : b.success = true)
    (hall : ∀ u ∈ getAnalyzeApiUrls query, ∃ e, net u = .transportError e) :
    ∃ msg, fetchAndAnalyzeMeeting query (.body b) net =
        (.ok { success := true, data := b.data, analyzeResponse := none,
               error := some msg }, getAnalyzeApiUrls query)
      ∧ msg ≠ "" := by
  obtain ⟨le', hloop⟩ :=
    runAnalyzeLoop_allTransport net (getAnalyzeApiUrls query) none none none [] hall
  refine ⟨"Analysis failed - could not connect to any analyze API endpoints. Last error: "
      ++ jsStringOr le' "Unknown network error"
      ++ ". Transcript was fetched successfully.", ?_, ?_⟩
  · simp only [fetchAndAnalyzeMeeting, fetchAndAnalyzeMeetingTry, hb]
    rw [hloop]
    simp
  · exact strAppend_ne_empty _ _ (strAppend_ne_empty _ _ (by decide))

/-- Witness for C3: all candidates refuse the connection. -/
theorem allTransport_partial_success_witness :
    ∃ msg, fetchAndAnalyzeMeeting [] (.body ⟨true, none, none⟩)
        (fun _ => .transportError (some "connection refused")) =
        (.ok { success := true, data := none, analyzeResponse := none,
               error := some msg }, getAnalyzeApiUrls [])
      ∧ msg ≠ "" :=
  allTransport_partial_success [] ⟨true, none, none⟩
    (fun _ => .transportError (some "connection refused")) rfl
    (fun _ _ => ⟨some "connection refused", rfl⟩)

/-- **C4.** When the transcript fetch succeeds and the stopping analyze
candidate (the first one whose fetch and body parse both complete) responds
with a non-2xx status, the result is
`{success: true, data, analyzeResponse, error: <analysis-failed summary>}`
with the parsed error body attached as `analyzeResponse`. -/
theorem analyze_non2xx_partial_success (query : List (String × String)) (b : FetchBody)
    (net : String → AnalyzeOutcome) (pre : List String) (u : String) (post : List String)
    (stt : Nat) (body : Js)
    (hb : b.success = true)
    (hsplit : getAnalyzeApiUrls query = pre ++ u :: post)
    (hpre : ∀ v ∈ pre, (net v).isResponse = false)
    (hu : net u = .response stt body)
    (hnok : respOk stt = false) :
    fetchAndAnalyzeMeeting query (.body b) net =
      (.ok { success := true, data := b.data, analyzeResponse := some body,
             error := some ("Analysis failed: "
               ++ jsValueOr (body.getField "message") "Unknown error"
               ++ ", but transcript was fetched successfully") },
       pre ++ [u]) := by
  obtain ⟨le', hloop⟩ :=
    runAnalyzeLoop_firstResponse net pre u post none none none [] stt body hpre hu
  simp only [fetchAndAnalyzeMeeting, fetchAndAnalyzeMeetingTry, hb, hsplit]
  rw [hloop]
  simp [hnok]

/-- Witness for C4: the first candidate returns HTTP 500 with a JSON error
body; no further candidate is attempted and the body is attached. -/
theorem analyze_non2xx_partial_success_witness :
    fetchAndAnalyzeMeeting [] (.body ⟨true, none, none⟩)
        (fun v => if v == analyzeUrl0
                  then .response 500 (.obj [("message", .str "llm backend down")])
                  else .transportError none) =
      (.ok { success := true, data := none,
             analyzeResponse := some (.obj [("message", .str "llm backend down")]),
             error := some "Analysis failed: llm backend down, but transcript was fetched successfully" },
       [analyzeUrl0]) :=
  (analyze_non2xx_partial_success [] ⟨true, none, none⟩
    (fun v => if v == analyzeUrl0
              then .response 500 (.obj [("message", .str "llm backend down")])
              else .transportError none)
    [] analyzeUrl0 [analyzeUrl1, analyzeUrl2] 500 (.obj [("message", .str "llm backend down")])
    rfl getAnalyzeApiUrls_nil (fun _ hv => nomatch hv) rfl rfl).trans rfl

/-- **C5.** When the transcript fetch succeeds and the stopping analyze
candidate responds 2xx, the result is
`{success: true, data, analyzeResponse}` with no `error` field; earlier
candidates may have failed at the transport level. -/
theorem analyze_2xx_no_error (query : List (String × String)) (b : FetchBody)
    (net : String → AnalyzeOutcome) (pre : List String) (u : String) (post : List String)
    (stt : Nat) (body : Js)
    (hb : b.success = true)
    (hsplit : getAnalyzeApiUrls query = pre ++ u :: post)
    (hpre : ∀ v ∈ pre, (net v).isResponse = false)
    (hu : net u = .response stt body)
    (hok : respOk stt = true) :
    fetchAndAnalyzeMeeting query (.body b) net =
      (.ok { success := true, data := b.data, analyzeResponse := some body,
             error := none },
       pre ++ [u]) := by
  obtain ⟨le', hloop⟩ :=
    runAnalyzeLoop_firstResponse net pre u post none none none [] stt body hpre hu
  simp only [fetchAndAnalyzeMeeting, fetchAndAnalyzeMeetingTry, hb, hsplit]
  rw [hloop]
  simp [hok]

/-- Witness for C5, at the scenario named by the claim: the first candidate
throws a transport error, the second responds 200; the result has no error
and carries the second candidate's body. -/
theorem analyze_2xx_no_error_witness :
    fetchAndAnalyzeMeeting [] (.body ⟨true, none, none⟩)
        (fun v => if v == analyzeUrl0
                  then .transportError (some "connect ECONNREFUSED")
                  else .response 200 (.obj [("data", .obj [("mode", .str "test")])])) =
      (.ok { success := true, data := none,
             analyzeResponse := some (.obj [("data", .obj [("mode", .str "test")])]),
             error := none },
       [analyzeUrl0, analyzeUrl1]) :=
  (analyze_2xx_no_error [] ⟨true, none, none⟩
    (fun v => if v == analyzeUrl0
              then .transportError (some "connect ECONNREFUSED")
              else .response 200 (.obj [("data", .obj [("mode", .str "test")])]))
    [analyzeUrl0] analyzeUrl1 [analyzeUrl2] 200 (.obj [("data", .obj [("mode", .str "test")])])
    rfl getAnalyzeApiUrls_nil
    (by intro v hv; simp only [List.mem_singleton] at hv; subst hv; rfl)
    rfl rfl).trans rfl

/-- **C1 (counterexample).** The claim says a non-2xx HTTP status stops the
loop and only transport-level failures advance to the next candidate.  In
the code the loop advances whenever `fetch` *or* `response.json()` throws:
here the first candidate responds HTTP 500 whose body fails to parse for a
non-network reason (invalid JSON, `networkLevel := false`), yet a second
candidate is attempted — the trace has two URLs where the claim requires
the loop to have stopped after the first. -/
theorem analyze_first_response_stops_cx :
    (fetchAndAnalyzeMeeting [] (.body ⟨true, none, none⟩)
        (fun v => if v == analyzeUrl0
                  then .bodyError 500 false (some "Unexpected token < in JSON at position 0")
                  else .response 200 (.obj []))).2 =
      [analyzeUrl0, analyzeUrl1] := rfl

/-- **C1 (amended).** In `fetchAndAnalyzeMeeting`'s analyze phase the
candidates are attempted in fixed order and the loop stops at the first
candidate whose fetch *and* JSON body parse both complete without an
exception; a non-2xx status with a parseable body still stops the loop,
while transport-level failures *and* body-parse failures alike advance to
the next candidate.  In particular, if the first parsed response has a
non-2xx status (e.g. HTTP 500), no later candidate is attempted and the
result carries `analyzeResponse` plus a non-empty descriptive error. -/
theorem analyze_first_parsed_response_stops (query : List (String × String)) (b : FetchBody)
    (net : String → AnalyzeOutcome) (pre : List String) (u : String) (post : List String)
    (stt : Nat) (body : Js)
    (hb : b.success = true)
    (hsplit : getAnalyzeApiUrls query = pre ++ u :: post)
    (hpre : ∀ v ∈ pre, (net v).isResponse = false)
    (hu : net u = .response stt body) :
    ∃ r, fetchAndAnalyzeMeeting query (.body b) net = (.ok r, pre ++ [u])
      ∧ r.success = true ∧ r.data = b.data ∧ r.analyzeResponse = some body
      ∧ (respOk stt = false → ∃ msg, r.error = some msg ∧ msg ≠ "") := by
  obtain ⟨le', hloop⟩ :=
    runAnalyzeLoop_firstResponse net pre u post none none none [] stt body hpre hu
  cases hok : respOk stt with
  | true =>
    refine ⟨{ success := true, data := b.data, analyzeResponse := some body,
              error := none }, ?_, rfl, rfl, rfl,
            fun hc => absurd hc (by decide)⟩
    simp only [fetchAndAnalyzeMeeting, fetchAndAnalyzeMeetingTry, hb, hsplit]
    rw [hloop]
    simp [hok]
  | false =>
    refine ⟨{ success := true, data := b.data, analyzeResponse := some body,
              error := some ("Analysis failed: "
                ++ jsValueOr (body.getField "message") "Unknown error"
                ++ ", but transcript was fetched successfully") },
            ?_, rfl, rfl, rfl,
            fun _ => ⟨_, rfl, strAppend_ne_empty _ _ (strAppend_ne_empty _ _ (by decide))⟩⟩
    simp only [fetchAndAnalyzeMeeting, fetchAndAnalyzeMeetingTry, hb, hsplit]
    rw [hloop]
    simp [hok]

/-- Witness for the amended C1: the first candidate responds HTTP 500 with
a parseable body; the loop attempts no second candidate. -/
theorem analyze_first_parsed_response_stops_witness :
    ∃ r, fetchAndAnalyzeMeeting [] (.body ⟨true, none, none⟩)
          (fun v => if v == analyzeUrl0
                    then .response 500 (.obj [("message", .str "boom")])
                    else .transportError none) = (.ok r, [analyzeUrl0])
      ∧ r.success = true ∧ r.data = none
      ∧ r.analyzeResponse = some (.obj [("message", .str "boom")])
      ∧ (respOk 500 = false → ∃ msg, r.error = some msg ∧ msg ≠ "") :=
  analyze_first_parsed_response_stops [] ⟨true, none, none⟩
    (fun v => if v == analyzeUrl0
              then .response 500 (.obj [("message", .str "boom")])
              else .transportError none)
    [] analyzeUrl0 [analyzeUrl1, analyzeUrl2] 500 (.obj [("message", .str "boom")])
    rfl getAnalyzeApiUrls_nil (fun _ hv => nomatch hv) rfl

/-- **C6.** `fetchAndAnalyzeMeeting` never rejects past its public
boundary: the returned promise is `.ok` for every network behaviour, and
any exception during phase 1 (a rejected fetch or a malformed response
body) is converted into a terminal `{success: false, error: <message>}`
result. -/
theorem orchestration_never_throws :
    (∀ (query : List (String × String)) (fo : FetchOutcome)
       (net : String → AnalyzeOutcome),
       ∃ r, (fetchAndAnalyzeMeeting query fo net).1 = .ok r)
    ∧ (∀ (query : List (String × String)) (e : Option String)
         (net : String → AnalyzeOutcome),
       (fetchAndAnalyzeMeeting query (.fetchThrow e) net).1 =
         .ok { success := false, data := none, analyzeResponse := none,
               error := some (jsErrorMessage e "An error occurred during the process") }
       ∧ (fetchAndAnalyzeMeeting query (.jsonThrow e) net).1 =
         .ok { success := false, data := none, analyzeResponse := none,
               error := some (jsErrorMessage e "An error occurred during the process") }) := by
  constructor
  · intro query fo net
    unfold fetchAndAnalyzeMeeting
    cases h : (fetchAndAnalyzeMeetingTry query fo net).1 with
    | ok v => exact ⟨v, by simp [h]⟩
    | error e =>
      exact ⟨{ success := false, data := none, analyzeResponse := none,
               error := some (jsErrorMessage e "An error occurred during the process") },
             by simp [h]⟩
  · exact fun query e net => ⟨rfl, rfl⟩

/-- **C7.** `checkAuthStatus` never rejects: for every transport outcome it
resolves to a value, and on any network or parse failure that value is
`{authenticated: false}`. -/
theorem checkAuthStatus_never_rejects :
    (∀ o : AuthFetchOutcome, ∃ v, checkAuthStatus o = .ok v)
    ∧ (∀ e, checkAuthStatus (.fetchThrow e) = .ok authFalseJs)
    ∧ (∀ st e, checkAuthStatus (.jsonThrow st e) = .ok authFalseJs) := by
  refine ⟨fun o => ?_, fun e => rfl, fun st e => rfl⟩
  cases o with
  | fetchThrow e => exact ⟨authFalseJs, rfl⟩
  | jsonThrow st e => exact ⟨authFalseJs, rfl⟩
  | jsonOk st body => exact ⟨body, rfl⟩

/-- **C10.** `checkAuthStatus` performs no HTTP-status validation: whenever
the body parses as JSON — any status, any shape, including bodies without
an `authenticated` field — the parsed body is returned verbatim, and the
`{authenticated: false}` fallback is produced only for outcomes in which
the request or the body parse throws. -/
theorem checkAuthStatus_no_status_validation :
    (∀ (st : Nat) (body : Js), checkAuthStatus (.jsonOk st body) = .ok body)
    ∧ (∀ o : AuthFetchOutcome, (∀ st body, o ≠ .jsonOk st body) →
        checkAuthStatus o = .ok authFalseJs) := by
  refine ⟨fun st body => rfl, fun o h => ?_⟩
  cases o with
  | fetchThrow e => rfl
  | jsonThrow st e => rfl
  | jsonOk st body => exact absurd rfl (h st body)

/-- Witness for C10: a non-2xx response with a body lacking the
`authenticated` field is returned verbatim, and a thrown fetch produces the
fallback. -/
theorem checkAuthStatus_no_status_validation_witness :
    checkAuthStatus (.jsonOk 503 (.obj [("detail", .str "unavailable")])) =
        .ok (.obj [("detail", .str "unavailable")])
    ∧ checkAuthStatus (.fetchThrow (some "Failed to fetch")) = .ok authFalseJs :=
  ⟨checkAuthStatus_no_status_validation.1 503 (.obj [("detail", .str "unavailable")]),
   checkAuthStatus_no_status_validation.2 (.fetchThrow (some "Failed to fetch"))
     (fun _ _ h => AuthFetchOutcome.noConfusion h)⟩

/-- **C9.** The analyze candidate list is built from the page's own query
string: the `test_mode` flag is true exactly when the parameter is absent
(the default) or equals `"true"`, and every candidate URL is one of the
three base URLs followed by
`?test_mode=<bool>&llm_timeout=60&user_lookup_timeout=30`. -/
theorem analyze_urls_from_query :
    (∀ query : List (String × String),
       getTestModeFromUrl query = true ↔
         (searchParamsGet query "test_mode" = none
          ∨ searchParamsGet query "test_mode" = some "true"))
    ∧ (∀ (query : List (String × String)) (u : String), u ∈ getAnalyzeApiUrls query →
        ∃ base ∈ analyzeBaseUrls,
          u = base ++ "?test_mode=" ++ jsBoolString (getTestModeFromUrl query)
                ++ "&llm_timeout=60&user_lookup_timeout=30") := by
  constructor
  · intro query
    simp [getTestModeFromUrl]
  · intro query u hu
    simp only [getAnalyzeApiUrls, List.mem_map] at hu
    obtain ⟨base, hbase, rfl⟩ := hu
    exact ⟨base, hbase, rfl⟩

/-- Witness for C9: with `test_mode=false` in the query string the first
candidate URL carries `test_mode=false`. -/
theorem analyze_urls_from_query_witness :
    getAnalyzeApiUrls [("test_mode", "false")] =
        ["http://localhost:8000/api/v1/analyze?test_mode=false&llm_timeout=60&user_lookup_timeout=30",
         "http://127.0.0.1:8000/api/v1/analyze?test_mode=false&llm_timeout=60&user_lookup_timeout=30",
         "http://0.0.0.0:8000/api/v1/analyze?test_mode=false&llm_timeout=60&user_lookup_timeout=30"]
    ∧ ∃ base ∈ analyzeBaseUrls,
        "http://localhost:8000/api/v1/analyze?test_mode=false&llm_timeout=60&user_lookup_timeout=30" =
          base ++ "?test_mode="
            ++ jsBoolString (getTestModeFromUrl [("test_mode", "false")])
            ++ "&llm_timeout=60&user_lookup_timeout=30" :=
  ⟨rfl, analyze_urls_from_query.2 [("test_mode", "false")] _ (by decide)⟩

/-! ### Generic join/split lemmas for the export round trip -/

theorem joinWith_cons_ne_nil (sep : List α) (x : List α) (ys : List (List α))
    (h : ys ≠ []) : joinWith sep (x :: ys) = x ++ sep ++ joinWith sep ys := by
  cases ys with
  | nil => exact absurd rfl h
  | cons y t => rfl

theorem joinWith_ne_nil (sep : List α) (x : List α) (ys : List (List α))
    (hx : x ≠ []) : joinWith sep (x :: ys) ≠ [] := by
  cases ys with
  | nil => simpa [joinWith] using hx
  | cons y t =>
    simp only [joinWith]
    intro hc
    exact hx (List.append_eq_nil.mp ((List.append_eq_nil.mp hc).1)).1

theorem joinWith_append (sep : List α) (A B : List (List α))
    (hA : A ≠ []) (hB : B ≠ []) :
    joinWith sep (A ++ B) = joinWith sep A ++ sep ++ joinWith sep B := by
  induction A with
  | nil => exact absurd rfl hA
  | cons x xs ih =>
    cases xs with
    | nil =>
      cases B with
      | nil => exact absurd rfl hB
      | cons b bs => simp [joinWith]
    | cons y t =>
      have h1 : (y :: t : List (List α)) ++ B ≠ [] := by simp
      calc joinWith sep ((x :: y :: t) ++ B)
          = x ++ sep ++ joinWith sep ((y :: t) ++ B) := by
            rw [List.cons_append, joinWith_cons_ne_nil _ _ _ h1]
        _ = x ++ sep ++ (joinWith sep (y :: t) ++ sep ++ joinWith sep B) := by
            rw [ih (by simp)]
        _ = joinWith sep (x :: y :: t) ++ sep ++ joinWith sep B := by
            simp [joinWith, List.append_assoc]

theorem mem_joinWith (sep : List α) (pieces : List (List α)) (x : α)
    (hx : x ∈ joinWith sep pieces) : x ∈ sep ∨ ∃ p ∈ pieces, x ∈ p := by
  induction pieces with
  | nil => simp [joinWith] at hx
  | cons p ps ih =>
    cases ps with
    | nil =>
      simp only [joinWith] at hx
      exact Or.inr ⟨p, by simp, hx⟩
    | cons q t =>
      simp only [joinWith, List.mem_append] at hx
      rcases hx with (hx | hx) | hx
      · exact Or.inr ⟨p, by simp, hx⟩
      · exact Or.inl hx
      · rcases ih hx with h | ⟨r, hr, hxr⟩
        · exact Or.inl h
        · exact Or.inr ⟨r, by simp [hr], hxr⟩

theorem jsJoin_data (sep : String) (l : List String) :
    (jsJoin sep l).data = joinWith sep.data (l.map String.data) := by
  induction l with
  | nil => rfl
  | cons x xs ih =>
    cases xs with
    | nil => rfl
    | cons y t =>
      simp only [jsJoin, joinWith, List.map_cons, String.data_append]
      rw [ih]
      simp

theorem jsJoin_ne_empty (sep : String) (x : String) (ys : List String)
    (hx : x ≠ "") : jsJoin sep (x :: ys) ≠ "" := by
  cases ys with
  | nil => simpa [jsJoin] using hx
  | cons y t =>
    simp only [jsJoin]
    exact strAppend_ne_empty _ _ (strAppend_ne_empty _ _ hx)

theorem splitOnElem_ne_nil [DecidableEq α] (c : α) (l : List α) :
    splitOnElem c l ≠ [] := by
  induction l with
  | nil => simp [splitOnElem]
  | cons x xs ih =>
    simp only [splitOnElem]
    cases h : splitOnElem c xs with
    | nil => simp
    | cons r rs =>
      by_cases hx : x = c <;> simp [hx]

theorem splitOnElem_no_sep [DecidableEq α] (c : α) (l : List α)
    (h : c ∉ l) : splitOnElem c l = [l] := by
  induction l with
  | nil => rfl
  | cons x xs ih =>
    have hx : x ≠ c := fun hc => h (hc ▸ List.mem_cons_self x xs)
    have hxs : c ∉ xs := fun hc => h (List.mem_cons_of_mem _ hc)
    simp only [splitOnElem, ih hxs]
    simp [hx]

theorem splitOnElem_sep_cons [DecidableEq α] (c : α) (l : List α) :
    splitOnElem c (c :: l) = [] :: splitOnElem c l := by
  cases h : splitOnElem c l with
  | nil => exact absurd h (splitOnElem_ne_nil c l)
  | cons r rs => simp [splitOnElem, h]

theorem splitOnElem_append_no_sep [DecidableEq α] (c : α) (a l : List α)
    (h : c ∉ a) : splitOnElem c (a ++ c :: l) = a :: splitOnElem c l := by
  induction a with
  | nil => simpa using splitOnElem_sep_cons c l
  | cons x xs ih =>
    have hx : x ≠ c := fun hc => h (hc ▸ List.mem_cons_self x xs)
    have hxs : c ∉ xs := fun hc => h (List.mem_cons_of_mem _ hc)
    rw [List.cons_append]
    simp only [splitOnElem, ih hxs]
    simp [hx]

theorem splitOnElem_joinWith [DecidableEq α] (c : α) (pieces : List (List α))
    (hne : pieces ≠ []) (hfree : ∀ p ∈ pieces, c ∉ p) :
    splitOnElem c (joinWith [c] pieces) = pieces := by
  induction pieces with
  | nil => exact absurd rfl hne
  | cons p ps ih =>
    cases ps with
    | nil =>
      simp only [joinWith]
      exact splitOnElem_no_sep c p (hfree p (by simp))
    | cons q t =>
      have hjoin : joinWith [c] (p :: q :: t) = p ++ c :: joinWith [c] (q :: t) := by
        simp [joinWith]
      rw [hjoin, splitOnElem_append_no_sep c p _ (hfree p (by simp)),
          ih (by simp) (fun r hr => hfree r (List.mem_cons_of_mem _ hr))]

/-- Pad every non-first piece with prefix `a` and every non-last piece with
suffix `b` (what joining with `b ++ m ++ a` does to the pieces of a join
with `m`): tail part. -/
def padConcatTail (a b : List α) : List (List α) → List (List α)
  | [] => []
  | [L] => [a ++ L]
  | L :: rest => (a ++ L ++ b) :: padConcatTail a b rest

/-- Pad every non-first piece with prefix `a` and every non-last piece with
suffix `b`. -/
def padConcat (a b : List α) : List (List α) → List (List α)
  | [] => []
  | [L] => [L]
  | L :: rest => (L ++ b) :: padConcatTail a b rest

theorem padConcatTail_join (a b m : List α) :
    ∀ (rest : List (List α)), rest ≠ [] →
    a ++ joinWith (b ++ m ++ a) rest = joinWith m (padConcatTail a b rest) := by
  intro rest
  induction rest with
  | nil => exact fun h => absurd rfl h
  | cons L rest ih =>
    intro _
    cases rest with
    | nil => rfl
    | cons L2 rest2 =>
      have h2 : padConcatTail a b (L2 :: rest2) ≠ [] := by
        cases rest2 <;> simp [padConcatTail]
      calc a ++ joinWith (b ++ m ++ a) (L :: L2 :: rest2)
          = a ++ (L ++ (b ++ m ++ a) ++ joinWith (b ++ m ++ a) (L2 :: rest2)) := rfl
        _ = (a ++ L ++ b) ++ m ++ (a ++ joinWith (b ++ m ++ a) (L2 :: rest2)) := by
            simp [List.append_assoc]
        _ = (a ++ L ++ b) ++ m ++ joinWith m (padConcatTail a b (L2 :: rest2)) := by
            rw [ih (by simp)]
        _ = joinWith m (padConcatTail a b (L :: L2 :: rest2)) := by
            rw [show padConcatTail a b (L :: L2 :: rest2)
                  = (a ++ L ++ b) :: padConcatTail a b (L2 :: rest2) from rfl,
                joinWith_cons_ne_nil _ _ _ h2]

theorem padConcat_join (a b m : List α) (pieces : List (List α)) (h : pieces ≠ []) :
    joinWith (b ++ m ++ a) pieces = joinWith m (padConcat a b pieces) := by
  cases pieces with
  | nil => exact absurd rfl h
  | cons L rest =>
    cases rest with
    | nil => rfl
    | cons L2 rest2 =>
      have h2 : padConcatTail a b (L2 :: rest2) ≠ [] := by
        cases rest2 <;> simp [padConcatTail]
      calc joinWith (b ++ m ++ a) (L :: L2 :: rest2)
          = L ++ (b ++ m ++ a) ++ joinWith (b ++ m ++ a) (L2 :: rest2) := rfl
        _ = (L ++ b) ++ m ++ (a ++ joinWith (b ++ m ++ a) (L2 :: rest2)) := by
            simp [List.append_assoc]
        _ = (L ++ b) ++ m ++ joinWith m (padConcatTail a b (L2 :: rest2)) := by
            rw [padConcatTail_join a b m _ (by simp)]
        _ = joinWith m (padConcat a b (L :: L2 :: rest2)) := by
            rw [show padConcat a b (L :: L2 :: rest2)
                  = (L ++ b) :: padConcatTail a b (L2 :: rest2) from rfl,
                joinWith_cons_ne_nil _ _ _ h2]

theorem mem_padConcatTail (a b : List α) (LS : List (List α)) (p : List α)
    (hp : p ∈ padConcatTail a b LS) (x : α) (hx : x ∈ p) :
    x ∈ a ∨ x ∈ b ∨ ∃ L ∈ LS, x ∈ L := by
  induction LS generalizing p with
  | nil => simp [padConcatTail] at hp
  | cons L rest ih =>
    cases rest with
    | nil =>
      simp only [padConcatTail, List.mem_singleton] at hp
      subst hp
      rcases List.mem_append.mp hx with h | h
      · exact Or.inl h
      · exact Or.inr (Or.inr ⟨L, by simp, h⟩)
    | cons L2 rest2 =>
      simp only [padConcatTail, List.mem_cons] at hp
      rcases hp with rfl | hp
      · rcases List.mem_append.mp hx with h | h
        · rcases List.mem_append.mp h with h' | h'
          · exact Or.inl h'
          · exact Or.inr (Or.inr ⟨L, by simp, h'⟩)
        · exact Or.inr (Or.inl h)
      · rcases ih p hp hx with h | h | ⟨L', hL', hx'⟩
        · exact Or.inl h
        · exact Or.inr (Or.inl h)
        · exact Or.inr (Or.inr ⟨L', List.mem_cons_of_mem _ hL', hx'⟩)

theorem mem_padConcat (a b : List α) (LS : List (List α)) (p : List α)
    (hp : p ∈ padConcat a b LS) (x : α) (hx : x ∈ p) :
    x ∈ a ∨ x ∈ b ∨ ∃ L ∈ LS, x ∈ L := by
  cases LS with
  | nil => simp [padConcat] at hp
  | cons L rest =>
    cases rest with
    | nil =>
      simp only [padConcat, List.mem_singleton] at hp
      subst hp
      exact Or.inr (Or.inr ⟨p, by simp, hx⟩)
    | cons L2 rest2 =>
      simp only [padConcat, List.mem_cons] at hp
      rcases hp with rfl | hp
      · rcases List.mem_append.mp hx with h | h
        · exact Or.inr (Or.inr ⟨L, by simp, h⟩)
        · exact Or.inr (Or.inl h)
      · rcases mem_padConcatTail a b _ p hp x hx with h | h | ⟨L', hL', hx'⟩
        · exact Or.inl h
        · exact Or.inr (Or.inl h)
        · exact Or.inr (Or.inr ⟨L', List.mem_cons_of_mem _ hL', hx'⟩)

theorem padConcat_ne_nil (a b : List α) (LS : List (List α)) (h : LS ≠ []) :
    padConcat a b LS ≠ [] := by
  cases LS with
  | nil => exact absurd rfl h
  | cons L rest => cases rest <;> simp [padConcat]

/-- A chunk of lines that starts and ends with a non-blank line (stated via
`dropWhile` stability on the chunk and its reversal). -/
def GoodPiece (l : List String) : Prop :=
  l.dropWhile (fun s => s == "") = l ∧ l.reverse.dropWhile (fun s => s == "") = l.reverse

theorem dropWhile_length_le (p : α → Bool) (l : List α) :
    (l.dropWhile p).length ≤ l.length := by
  induction l with
  | nil => simp
  | cons x xs ih =>
    rw [List.dropWhile_cons]
    split
    · exact le_trans ih (by simp)
    · simp

theorem head_not_blank (x : String) (xs : List String)
    (h : (x :: xs).dropWhile (fun s => s == "") = x :: xs) : (x == "") = false := by
  cases hxb : (x == "") with
  | false => rfl
  | true =>
    rw [List.dropWhile_cons, hxb, if_pos rfl] at h
    have hlen := dropWhile_length_le (fun s => s == "") xs
    rw [h] at hlen
    simp at hlen

theorem dropWhile_append_blank (x : String) (xs : List String)
    (hx : (x == "") = false) :
    ((x :: xs) ++ [""]).dropWhile (fun s => s == "") = (x :: xs) ++ [""] := by
  rw [List.cons_append, List.dropWhile_cons, hx]
  simp

theorem trimBlank_of_good (l : List String) (h : GoodPiece l) :
    trimBlank l = l ∧ trimBlank (l ++ [""]) = l
    ∧ trimBlank ("" :: l) = l ∧ trimBlank ("" :: (l ++ [""])) = l := by
  obtain ⟨h1, h2⟩ := h
  cases l with
  | nil => refine ⟨rfl, rfl, rfl, rfl⟩
  | cons x xs =>
    have hx : (x == "") = false := head_not_blank x xs h1
    have hblank : ∀ (X : List String),
        ("" :: X).dropWhile (fun s => s == "") = X.dropWhile (fun s => s == "") := by
      intro X
      rw [List.dropWhile_cons]
      simp
    have core : ((x :: xs).dropWhile (fun s => s == "")).reverse.dropWhile
        (fun s => s == "") = (x :: xs).reverse := by
      rw [h1, h2]
    have coreSuffix : (((x :: xs) ++ [""]).dropWhile (fun s => s == "")).reverse.dropWhile
        (fun s => s == "") = (x :: xs).reverse := by
      rw [dropWhile_append_blank x xs hx]
      have : ((x :: xs) ++ [""]).reverse = "" :: (x :: xs).reverse := by simp
      rw [this, hblank, h2]
    refine ⟨?_, ?_, ?_, ?_⟩
    · unfold trimBlank
      rw [h1, h2]
      exact List.reverse_reverse _
    · unfold trimBlank
      rw [coreSuffix]
      exact List.reverse_reverse _
    · unfold trimBlank
      rw [hblank, h1, h2]
      exact List.reverse_reverse _
    · unfold trimBlank
      rw [hblank, dropWhile_append_blank x xs hx]
      have hrev : ((x :: xs) ++ [""]).reverse = "" :: (x :: xs).reverse := by simp
      rw [hrev, hblank, h2]
      exact List.reverse_reverse _

theorem map_trimBlank_padConcatTail (LS : List (List String))
    (hgood : ∀ b ∈ LS, GoodPiece b) :
    (padConcatTail [""] [""] LS).map trimBlank = LS := by
  induction LS with
  | nil => rfl
  | cons L rest ih =>
    cases rest with
    | nil =>
      have h := trimBlank_of_good L (hgood L (by simp))
      simp only [padConcatTail, List.map_cons, List.map_nil]
      rw [show ([""] ++ L : List String) = "" :: L from rfl, h.2.2.1]
    | cons L2 rest2 =>
      have h := trimBlank_of_good L (hgood L (by simp))
      simp only [padConcatTail, List.map_cons]
      rw [show ([""] ++ L ++ [""] : List String) = "" :: (L ++ [""]) from rfl, h.2.2.2,
          ih (fun b hb => hgood b (List.mem_cons_of_mem _ hb))]

theorem map_trimBlank_padConcat (LS : List (List String))
    (hgood : ∀ b ∈ LS, GoodPiece b) :
    (padConcat [""] [""] LS).map trimBlank = LS := by
  cases LS with
  | nil => rfl
  | cons L rest =>
    cases rest with
    | nil =>
      have h := trimBlank_of_good L (hgood L (by simp))
      simp only [padConcat, List.map_cons, List.map_nil]
      rw [h.1]
    | cons L2 rest2 =>
      have h := trimBlank_of_good L (hgood L (by simp))
      simp only [padConcat, List.map_cons]
      rw [h.2.1,
          map_trimBlank_padConcatTail _ (fun b hb => hgood b (List.mem_cons_of_mem _ hb))]

/-- The character stream of a chunk of lines: the lines' data joined by a
newline character. -/
def linesData (b : List String) : List Char :=
  joinWith ['\n'] (b.map String.data)

theorem linesData_append (A B : List String) (hA : A ≠ []) (hB : B ≠ []) :
    linesData (A ++ B) = linesData A ++ ['\n'] ++ linesData B := by
  unfold linesData
  rw [List.map_append,
      joinWith_append ['\n'] _ _ (by simpa using hA) (by simpa using hB)]

theorem linesData_joinWith (S : List String) (LS : List (List String))
    (hS : S ≠ []) (hpieces : ∀ L ∈ LS, L ≠ []) :
    LS ≠ [] →
    linesData (joinWith S LS) =
      joinWith (['\n'] ++ linesData S ++ ['\n']) (LS.map linesData) := by
  induction LS with
  | nil => exact fun h => absurd rfl h
  | cons L rest ih =>
    intro _
    cases rest with
    | nil => rfl
    | cons L2 rest2 =>
      have hL : L ≠ [] := hpieces L (by simp)
      have hL2 : L2 ≠ [] := hpieces L2 (by simp)
      have hjoin_ne : joinWith S (L2 :: rest2) ≠ [] := joinWith_ne_nil S L2 rest2 hL2
      have step1 : joinWith S (L :: L2 :: rest2) = L ++ (S ++ joinWith S (L2 :: rest2)) := by
        rw [joinWith_cons_ne_nil S L _ (by simp)]
        simp [List.append_assoc]
      have hSA : S ++ joinWith S (L2 :: rest2) ≠ [] := by
        intro hc
        exact hS (List.append_eq_nil.mp hc).1
      have step2 : linesData (joinWith S (L :: L2 :: rest2)) =
          linesData L ++ ['\n'] ++ (linesData S ++ ['\n'] ++ linesData (joinWith S (L2 :: rest2))) := by
        rw [step1, linesData_append L _ hL hSA, linesData_append S _ hS hjoin_ne]
      rw [step2, ih (fun p hp => hpieces p (List.mem_cons_of_mem _ hp)) (by simp)]
      simp only [List.map_cons, joinWith]
      simp [List.append_assoc]

theorem meetingLine_ne_empty (td : TranscriptData) : meetingLine td ≠ "" :=
  strAppend_ne_empty _ _ (by decide)

theorem fmtEntryLine_ne_empty (e : TranscriptEntry) : fmtEntryLine e ≠ "" := by
  have h1 : ("[" : String) ++ jsStrOr e.startTime "00:00" ≠ "" :=
    strAppend_ne_empty "[" _ (by decide)
  unfold fmtEntryLine
  exact strAppend_ne_empty _ _ (strAppend_ne_empty _ _ (strAppend_ne_empty _ _
    (strAppend_ne_empty _ _ (strAppend_ne_empty _ _ h1))))

theorem blockText_ne_empty (ft : String → String) (td : TranscriptData) (i : Nat)
    (t : TranscriptSection) : blockText ft td i t ≠ "" := by
  unfold blockText blockHeader
  exact strAppend_ne_empty _ _ (strAppend_ne_empty _ _ (strAppend_ne_empty _ _
    (strAppend_ne_empty _ _ (strAppend_ne_empty _ _ (strAppend_ne_empty _ _
      (strAppend_ne_empty _ _ (meetingLine_ne_empty td)))))))

theorem blockLines_ne_nil (ft : String → String) (td : TranscriptData) (i : Nat)
    (t : TranscriptSection) : blockLines ft td i t ≠ [] := by
  simp [blockLines]

theorem blockLines_good (ft : String → String) (td : TranscriptData) (i : Nat)
    (t : TranscriptSection) (h : t.entries ≠ []) : GoodPiece (blockLines ft td i t) := by
  have hm : (meetingLine td == "") = false :=
    beq_eq_false_iff_ne.mpr (meetingLine_ne_empty td)
  obtain ⟨zs, z, hz⟩ : ∃ zs z, t.entries.map fmtEntryLine = zs ++ [z] := by
    rcases List.eq_nil_or_concat (t.entries.map fmtEntryLine) with h' | ⟨zs, z, h'⟩
    · exact absurd (List.map_eq_nil_iff.mp h') h
    · exact ⟨zs, z, by simpa using h'⟩
  have hzmem : z ∈ t.entries.map fmtEntryLine := by
    rw [hz]
    simp
  obtain ⟨e', _, he'⟩ := List.mem_map.mp hzmem
  have hzne : (z == "") = false :=
    beq_eq_false_iff_ne.mpr (he' ▸ fmtEntryLine_ne_empty e')
  constructor
  · show (blockLines ft td i t).dropWhile (fun s => s == "") = blockLines ft td i t
    rw [show blockLines ft td i t
          = meetingLine td :: ([dateLine ft td, tidLine i t, ""] ++ t.entries.map fmtEntryLine)
        from rfl]
    rw [List.dropWhile_cons, hm]
    simp
  · show (blockLines ft td i t).reverse.dropWhile (fun s => s == "")
      = (blockLines ft td i t).reverse
    have hrw : blockLines ft td i t
        = ([meetingLine td, dateLine ft td, tidLine i t, ""] ++ zs) ++ [z] := by
      rw [show blockLines ft td i t
            = [meetingLine td, dateLine ft td, tidLine i t, ""] ++ t.entries.map fmtEntryLine
          from rfl, hz, List.append_assoc]
    rw [hrw]
    rw [show ((([meetingLine td, dateLine ft td, tidLine i t, ""] ++ zs) ++ [z]).reverse)
          = z :: ([meetingLine td, dateLine ft td, tidLine i t, ""] ++ zs).reverse
        by simp]
    rw [List.dropWhile_cons, hzne]
    simp

theorem blockText_lines (ft : String → String) (td : TranscriptData) (i : Nat)
    (t : TranscriptSection) (h : t.entries ≠ []) :
    blockText ft td i t = jsJoin "\n" (blockLines ft td i t) := by
  obtain ⟨e, es, he⟩ : ∃ e es, t.entries = e :: es := by
    cases hc : t.entries with
    | nil => exact absurd hc h
    | cons e es => exact ⟨e, es, rfl⟩
  have hne : jsJoin "\n" (t.entries.map fmtEntryLine) ≠ "" := by
    rw [he, List.map_cons]
    exact jsJoin_ne_empty _ _ _ (fmtEntryLine_ne_empty e)
  have hET : entriesText t = jsJoin "\n" (t.entries.map fmtEntryLine) := by
    unfold entriesText jsStrOr
    rw [if_neg (by simpa using hne)]
  show blockHeader ft td i t ++ entriesText t = _
  rw [hET]
  unfold blockHeader blockLines
  rw [he, List.map_cons]
  simp [jsJoin, String.append_assoc, String.empty_append]
  rw [show ("\n\n" : String) = "\n" ++ "\n" from rfl, String.append_assoc]

theorem jsMapIdxFrom_length (f : Nat → α → β) :
    ∀ (n : Nat) (l : List α), (jsMapIdxFrom f n l).length = l.length := by
  intro n l
  induction l generalizing n with
  | nil => rfl
  | cons x xs ih => simp [jsMapIdxFrom, ih]

theorem jsMapIdxFrom_mem (f : Nat → α → β) :
    ∀ (n : Nat) (l : List α) (b : β), b ∈ jsMapIdxFrom f n l →
    ∃ i x, x ∈ l ∧ b = f i x := by
  intro n l
  induction l generalizing n with
  | nil => intro b hb; simp [jsMapIdxFrom] at hb
  | cons x xs ih =>
    intro b hb
    simp only [jsMapIdxFrom, List.mem_cons] at hb
    rcases hb with rfl | hb
    · exact ⟨n, x, by simp, rfl⟩
    · obtain ⟨i, y, hy, hb⟩ := ih (n + 1) b hb
      exact ⟨i, y, List.mem_cons_of_mem _ hy, hb⟩

theorem jsMapIdxFrom_getElem? (f : Nat → α → β) :
    ∀ (l : List α) (n i : Nat), (jsMapIdxFrom f n l)[i]? = (l[i]?).map (f (n + i)) := by
  intro l
  induction l with
  | nil => intro n i; simp [jsMapIdxFrom]
  | cons x xs ih =>
    intro n i
    cases i with
    | zero => simp [jsMapIdxFrom]
    | succ j =>
      simp only [jsMapIdxFrom, List.getElem?_cons_succ]
      rw [ih (n + 1) j, show n + 1 + j = n + (j + 1) by omega]

theorem jsMapIdxFrom_blockText (ft : String → String) (td : TranscriptData) :
    ∀ (l : List TranscriptSection) (n : Nat), (∀ t ∈ l, t.entries ≠ []) →
    jsMapIdxFrom (blockText ft td) n l =
      (jsMapIdxFrom (blockLines ft td) n l).map (jsJoin "\n") := by
  intro l
  induction l with
  | nil => intro n _; rfl
  | cons t ts ih =>
    intro n h
    simp only [jsMapIdxFrom, List.map_cons]
    rw [blockText_lines ft td n t (h t (by simp)),
        ih (n + 1) (fun u hu => h u (List.mem_cons_of_mem _ hu))]

theorem downloadContent_eq (ft : String → String) (td : TranscriptData)
    (h0 : td.transcripts ≠ []) (h1 : ∀ t ∈ td.transcripts, t.entries ≠ []) :
    downloadContent ft td =
      jsJoin "\n\n---\n\n" ((jsMapIdx (blockLines ft td) td.transcripts).map (jsJoin "\n")) := by
  obtain ⟨s, ss, hs⟩ : ∃ s ss, td.transcripts = s :: ss := by
    cases hc : td.transcripts with
    | nil => exact absurd hc h0
    | cons s ss => exact ⟨s, ss, rfl⟩
  have hne : jsJoin "\n\n---\n\n" (jsMapIdx (blockText ft td) td.transcripts) ≠ "" := by
    rw [hs]
    exact jsJoin_ne_empty _ _ _ (blockText_ne_empty ft td 0 s)
  unfold downloadContent jsStrOr
  rw [if_neg (by simpa using hne)]
  unfold jsMapIdx
  exact congrArg (jsJoin "\n\n---\n\n") (jsMapIdxFrom_blockText ft td td.transcripts 0 h1)

theorem downloadContent_data (ft : String → String) (td : TranscriptData)
    (h0 : td.transcripts ≠ []) (h1 : ∀ t ∈ td.transcripts, t.entries ≠ []) :
    (downloadContent ft td).data =
      linesData (joinWith ["", "---", ""] (jsMapIdx (blockLines ft td) td.transcripts)) := by
  have hblocks_ne : jsMapIdx (blockLines ft td) td.transcripts ≠ [] := by
    intro hc
    have := jsMapIdxFrom_length (blockLines ft td) 0 td.transcripts
    rw [show jsMapIdxFrom (blockLines ft td) 0 td.transcripts
          = jsMapIdx (blockLines ft td) td.transcripts from rfl, hc] at this
    exact h0 (List.length_eq_zero.mp this.symm)
  have hpieces : ∀ L ∈ jsMapIdx (blockLines ft td) td.transcripts, L ≠ [] := by
    intro L hL
    obtain ⟨i, t, _, rfl⟩ := jsMapIdxFrom_mem (blockLines ft td) 0 td.transcripts L hL
    exact blockLines_ne_nil ft td i t
  rw [downloadContent_eq ft td h0 h1, jsJoin_data, List.map_map]
  rw [show (String.data ∘ jsJoin "\n") = linesData by
        funext b
        exact jsJoin_data "\n" b]
  rw [linesData_joinWith ["", "---", ""] _ (by simp) hpieces hblocks_ne]
  rfl

theorem readBlocks_downloadContent (ft : String → String) (td : TranscriptData)
    (h0 : td.transcripts ≠ [])
    (h1 : ∀ t ∈ td.transcripts, t.entries ≠ [])
    (hclean : ∀ b ∈ jsMapIdx (blockLines ft td) td.transcripts, ∀ l ∈ b,
        '\n' ∉ l.data ∧ l ≠ "---") :
    readBlocks (downloadContent ft td) = jsMapIdx (blockLines ft td) td.transcripts := by
  have hblocks_ne : jsMapIdx (blockLines ft td) td.transcripts ≠ [] := by
    intro hc
    have hl := jsMapIdxFrom_length (blockLines ft td) 0 td.transcripts
    rw [show jsMapIdxFrom (blockLines ft td) 0 td.transcripts
          = jsMapIdx (blockLines ft td) td.transcripts from rfl, hc] at hl
    exact h0 (List.length_eq_zero.mp hl.symm)
  have hpieces : ∀ L ∈ jsMapIdx (blockLines ft td) td.transcripts, L ≠ [] := by
    intro L hL
    obtain ⟨i, t, _, rfl⟩ := jsMapIdxFrom_mem (blockLines ft td) 0 td.transcripts L hL
    exact blockLines_ne_nil ft td i t
  have hgood : ∀ b ∈ jsMapIdx (blockLines ft td) td.transcripts, GoodPiece b := by
    intro b hb
    obtain ⟨i, t, ht, rfl⟩ := jsMapIdxFrom_mem (blockLines ft td) 0 td.transcripts b hb
    exact blockLines_good ft td i t (h1 t ht)
  have hALne : joinWith ["", "---", ""] (jsMapIdx (blockLines ft td) td.transcripts) ≠ [] := by
    obtain ⟨b0, bs, hb⟩ : ∃ b0 bs, jsMapIdx (blockLines ft td) td.transcripts = b0 :: bs := by
      cases hc : jsMapIdx (blockLines ft td) td.transcripts with
      | nil => exact absurd hc hblocks_ne
      | cons b0 bs => exact ⟨b0, bs, rfl⟩
    rw [hb]
    exact joinWith_ne_nil _ _ _ (hpieces b0 (hb ▸ List.mem_cons_self b0 bs))
  have stepA : readLines (downloadContent ft td)
      = joinWith ["", "---", ""] (jsMapIdx (blockLines ft td) td.transcripts) := by
    unfold readLines
    rw [downloadContent_data ft td h0 h1]
    rw [show linesData (joinWith ["", "---", ""] (jsMapIdx (blockLines ft td) td.transcripts))
          = joinWith ['\n']
              ((joinWith ["", "---", ""] (jsMapIdx (blockLines ft td) td.transcripts)).map
                String.data) from rfl]
    rw [splitOnElem_joinWith '\n' _ (by simpa using hALne) ?_]
    · rw [List.map_map, show (List.asString ∘ String.data) = id from funext (fun s => rfl),
          List.map_id]
    · intro p hp
      obtain ⟨l, hl, rfl⟩ := List.mem_map.mp hp
      rcases mem_joinWith _ _ l hl with hsep | ⟨b, hb, hlb⟩
      · have hcase : l = "" ∨ l = "---" ∨ l = "" := by simpa using hsep
        rcases hcase with h' | h' | h' <;> subst h' <;> decide
      · exact (hclean b hb l hlb).1
  have stepB : splitOnElem "---"
      (joinWith ["", "---", ""] (jsMapIdx (blockLines ft td) td.transcripts))
      = padConcat [""] [""] (jsMapIdx (blockLines ft td) td.transcripts) := by
    rw [show (["", "---", ""] : List String) = [""] ++ ["---"] ++ [""] from rfl,
        padConcat_join [""] [""] ["---"] _ hblocks_ne]
    apply splitOnElem_joinWith "---" _ (padConcat_ne_nil _ _ _ hblocks_ne)
    intro p hp hmem
    rcases mem_padConcat [""] [""] _ p hp "---" hmem with h' | h' | ⟨L, hL, hx⟩
    · simp at h'
    · simp at h'
    · exact (hclean L hL "---" hx).2 rfl
  show (splitOnElem "---" (readLines (downloadContent ft td))).map trimBlank = _
  rw [stepA, stepB, map_trimBlank_padConcat _ hgood]

/-- **C8.** The transcript export produces one text block per transcript
section; re-reading the exported text (splitting it into lines, cutting at
each literal `---` divider line, and discarding the blank padding around
each chunk) reproduces exactly N blocks, the block at index i consisting of
the three header lines, a blank line, and then the M formatted entry lines
of section i in original order, where each entry line is
`[<startTime> - <endTime>] <speaker: ><text>` with JS-falsy defaults
(`fmtEntryLine`); the filename is `transcript-<meetingId|"meeting">.txt`.
The round trip assumes each rendered line contains no newline and is not
itself the divider `---`. -/
theorem downloadTranscript_roundtrip (ft : String → String) (td : TranscriptData)
    (N M : Nat)
    (hN : td.transcripts.length = N) (hNpos : 0 < N)
    (hM : ∀ t ∈ td.transcripts, t.entries.length = M) (hMpos : 0 < M)
    (hclean : ∀ b ∈ jsMapIdx (blockLines ft td) td.transcripts, ∀ l ∈ b,
        '\n' ∉ l.data ∧ l ≠ "---") :
    downloadFilename td = "transcript-" ++ jsStrOr td.meetingInfo.id "meeting" ++ ".txt"
    ∧ readBlocks (downloadContent ft td) = jsMapIdx (blockLines ft td) td.transcripts
    ∧ (readBlocks (downloadContent ft td)).length = N
    ∧ ∀ i, i < N → ∃ t, td.transcripts[i]? = some t
        ∧ (readBlocks (downloadContent ft td))[i]? =
            some ([meetingLine td, dateLine ft td, tidLine i t, ""]
              ++ t.entries.map fmtEntryLine)
        ∧ (t.entries.map fmtEntryLine).length = M := by
  have h0 : td.transcripts ≠ [] := by
    intro hc
    rw [hc] at hN
    simp at hN
    omega
  have h1 : ∀ t ∈ td.transcripts, t.entries ≠ [] := by
    intro t ht hc
    have := hM t ht
    rw [hc] at this
    simp at this
    omega
  have hRB := readBlocks_downloadContent ft td h0 h1 hclean
  refine ⟨rfl, hRB, ?_, ?_⟩
  · rw [hRB]
    show (jsMapIdxFrom (blockLines ft td) 0 td.transcripts).length = N
    rw [jsMapIdxFrom_length]
    exact hN
  · intro i hi
    have hilen : i < td.transcripts.length := by omega
    refine ⟨td.transcripts[i], List.getElem?_eq_getElem hilen, ?_, ?_⟩
    · rw [hRB]
      show (jsMapIdxFrom (blockLines ft td) 0 td.transcripts)[i]? = _
      rw [jsMapIdxFrom_getElem?, List.getElem?_eq_getElem hilen]
      simp only [Option.map_some, Nat.zero_add]
      rfl
    · rw [List.length_map]
      exact hM _ (List.getElem_mem hilen)

/-- A concrete transcript with 2 sections of 2 entries each, exercising the
optional-field defaults (missing speaker, empty text). -/
def tdSample : TranscriptData :=
  { meetingInfo :=
      { id := "mid-1", subject := "Weekly Sync",
        startDateTime := "2026-01-05T10:00", endDateTime := "2026-01-05T11:00",
        attendees := [{ name := "Ana", email := "ana@example.com" }] },
    transcripts :=
      [{ id := "t1", createdDateTime := "2026-01-05",
         entries := [{ startTime := "00:00", endTime := "00:10",
                       text := "hello", speaker := some "Ana" },
                     { startTime := "00:10", endTime := "00:20",
                       text := "agenda", speaker := none }] },
       { id := "t2", createdDateTime := "2026-01-06",
         entries := [{ startTime := "00:00", endTime := "00:05",
                       text := "notes", speaker := none },
                     { startTime := "00:05", endTime := "00:07",
                       text := "", speaker := some "Bo" }] }] }

/-- Witness for C8 at `tdSample` with the identity time formatter. -/
theorem downloadTranscript_roundtrip_witness :
    downloadFilename tdSample
        = "transcript-" ++ jsStrOr tdSample.meetingInfo.id "meeting" ++ ".txt"
    ∧ readBlocks (downloadContent (fun s => s) tdSample)
        = jsMapIdx (blockLines (fun s => s) tdSample) tdSample.transcripts
    ∧ (readBlocks (downloadContent (fun s => s) tdSample)).length = 2
    ∧ ∀ i, i < 2 → ∃ t, tdSample.transcripts[i]? = some t
        ∧ (readBlocks (downloadContent (fun s => s) tdSample))[i]? =
            some ([meetingLine tdSample, dateLine (fun s => s) tdSample, tidLine i t, ""]
              ++ t.entries.map fmtEntryLine)
        ∧ (t.entries.map fmtEntryLine).length = 2 :=
  downloadTranscript_roundtrip (fun s => s) tdSample 2 2 rfl (by decide)
    (by decide) (by decide) (by decide)
